import Mathlib

/-!
Shallow embedding of the vuefire RTDB plugin (src/vuefire/rtdb.ts):
the binding orchestration and rebind/unbind state machine.

The external synchronization engines (rtdbBindAsArray, rtdbBindAsObject)
are out of scope; invoking one is recorded as a trace event and its
returned unsubscribe handle is supplied as a parameter.  Unsubscribe
handles are opaque: a handle is identified by a number, invoking it is
recorded as a trace event, and a behaviour parameter `throws` says
whether the handle raises when invoked.

JavaScript objects used as string-keyed records are modelled as
association lists; a mapping that the code sets to `null` (in
`beforeDestroy`) is modelled as `none`.  A thrown exception is modelled
by returning the state at the moment the exception propagates together
with `some` error, mirroring that the exception aborts the rest of the
operation.
-/

namespace RTDB

abbrev Key := String

/-- An unsubscribe handle returned by a synchronization engine, identified
by a number.  Its behaviour when invoked is given by a `throws` parameter. -/
abbrev Handle := Nat

/-- Shape of a JavaScript value stored at `vm[key]`: an array, a plain
object, or a primitive.  Only `Array.isArray` is ever inspected. -/
inductive Val where
  | arr (len : Nat)
  | obj (tag : Nat)
  | prim (n : Nat)
deriving DecidableEq

/-- `Array.isArray` on a local property value. -/
def Val.isArray : Val → Bool
  | .arr _ => true
  | _ => false

/-- The `reset` option of RTDBOptions: a boolean, a literal value, or a
function (functions are opaque, identified by a number). -/
inductive ResetVal where
  | bool (b : Bool)
  | lit (v : Nat)
  | fn (f : Nat)
deriving DecidableEq

/-- `typeof reset === 'function'`. -/
def ResetVal.isFunction : ResetVal → Bool
  | .fn _ => true
  | _ => false

/-- A firebase database Reference or Query.  `refId` is its canonical
reference (`refOrQuery.ref`); `isCollectionShaped` records whether the
remote data is collection-shaped, which the plugin never inspects. -/
structure Source where
  id : Nat
  refId : Nat
  isCollectionShaped : Bool
deriving DecidableEq

/-- `getRef` from the source: returns the original reference of a
reference or query (`refOrQuery.ref`). -/
def getRef (s : Source) : Nat :=
  s.refId

/- Association lists model JavaScript objects used as records. -/

/-- Property lookup `m[k]`: `none` models `undefined`. -/
def alookup {α : Type} : List (Key × α) → Key → Option α
  | [], _ => none
  | (k', v) :: rest, k => if k' = k then some v else alookup rest k

/-- Property assignment `m[k] = v`: overwrites in place or appends. -/
def aset {α : Type} : List (Key × α) → Key → α → List (Key × α)
  | [], k, v => [(k, v)]
  | (k', v') :: rest, k, v =>
    if k' = k then (k, v) :: rest else (k', v') :: aset rest k v

/-- Property deletion `delete m[k]`. -/
def aerase {α : Type} : List (Key × α) → Key → List (Key × α)
  | [], _ => []
  | (k', v) :: rest, k =>
    if k' = k then aerase rest k else (k', v) :: aerase rest k

/-- Whether key `k` is present in the record. -/
def acontains {α : Type} (m : List (Key × α)) (k : Key) : Bool :=
  (alookup m k).isSome

/-- Key presence in a possibly-null (`none`) record. -/
def ocontains {α : Type} (m : Option (List (Key × α))) (k : Key) : Bool :=
  acontains (m.getD []) k

/-- A component instance: its local data properties and the three
per-instance registry mappings created in `beforeCreate` and set to
`null` (`none`) in `beforeDestroy`. -/
structure Vm where
  props : List (Key × Val)
  firebaseSources : Option (List (Key × Source))
  firebaseUnbinds : Option (List (Key × Handle))
  firebaseRefs : Option (List (Key × Nat))
deriving DecidableEq

/-- Observable actions: invoking a stored unsubscribe handle with an
optional reset argument, or invoking one of the two external
synchronization engines. -/
inductive Event where
  | invoke (h : Handle) (reset : Option ResetVal)
  | engineArray (key : Key) (source : Source)
  | engineObject (key : Key) (source : Source)
deriving DecidableEq

/-- Whether the event is an invocation of a synchronization engine. -/
def Event.isEngine : Event → Bool
  | .engineArray _ _ => true
  | .engineObject _ _ => true
  | .invoke _ _ => false

/-- Exceptions: a TypeError from accessing or calling a missing/null
value, or a failure raised by an unsubscribe handle. -/
inductive Err where
  | typeError
  | handleError (h : Handle)
deriving DecidableEq

/-- Per-call (or per-install) option overrides: each recognized field is
optionally present, mirroring `PluginOptions` / `RTDBOptions` where every
field is optional.  `serialize` is an opaque function identified by a
number. -/
structure PluginOptions where
  bindName : Option Key := none
  unbindName : Option Key := none
  serialize : Option Nat := none
  reset : Option ResetVal := none
  wait : Option Bool := none
deriving DecidableEq

/-- A fully resolved configuration (`Required<PluginOptions>`). -/
structure ResolvedOptions where
  bindName : Key
  unbindName : Key
  serialize : Nat
  reset : ResetVal
  wait : Bool
deriving DecidableEq

/-- `Object.assign(\x7b\x7d, defaults, overrides)`: field-by-field merge,
a field present in the overrides wins, an absent field falls back to the
default. -/
def mergeOptions (d : ResolvedOptions) (o : PluginOptions) : ResolvedOptions :=
  { bindName := o.bindName.getD d.bindName
    unbindName := o.unbindName.getD d.unbindName
    serialize := o.serialize.getD d.serialize
    reset := o.reset.getD d.reset
    wait := o.wait.getD d.wait }

/-- View a fully resolved configuration as an overrides record with every
field present (used when `created` passes `globalOptions` to the bind
entry point). -/
def asOverrides (o : ResolvedOptions) : PluginOptions :=
  { bindName := some o.bindName
    unbindName := some o.unbindName
    serialize := some o.serialize
    reset := some o.reset
    wait := some o.wait }

/-- Modelled from the spec: the defaults `rtdbOptions.serialize`,
`rtdbOptions.reset` and `rtdbOptions.wait` come from the core module
(`../core`), which is not part of this repository slice; the spec only
says each option has a documented default.  Concrete stand-in values are
used; no claim depends on them.  The two name defaults are from the
source (`defaultOptions`). -/
def defaultOptions : ResolvedOptions :=
  { bindName := "$rtdbBind"
    unbindName := "$rtdbUnbind"
    serialize := 0
    reset := .bool true
    wait := false }

/-- `Array.isArray(vm[key])`: whether the local property currently holds
an ordered sequence (`undefined` is not an array). -/
def localIsArray (vm : Vm) (key : Key) : Bool :=
  match alookup vm.props key with
  | some v => v.isArray
  | none => false

/-- The engine invocation the internal `bind` function performs:
`bindAsArray` when the local value is an array, `bindAsObject`
otherwise. -/
def modeEvent (vm : Vm) (key : Key) (source : Source) : Event :=
  if localIsArray vm key then Event.engineArray key source
  else Event.engineObject key source

/-- The internal `bind` function: inspects `Array.isArray(vm[key])` to
pick the synchronization engine, invokes it (recorded as an event; the
engine returns `newHandle`), then stores the handle with
`vm._firebaseUnbinds[key] = unbind`.  The promise machinery is out of
scope; the returned snapshot is delivered through the engine. -/
def bind (vm : Vm) (key : Key) (source : Source) (newHandle : Handle) :
    Vm × List Event × Option Err :=
  let ev := modeEvent vm key source
  match vm.firebaseUnbinds with
  | none => (vm, [ev], some .typeError)
  | some m =>
    ({ vm with firebaseUnbinds := some (aset m key newHandle) }, [ev], none)

/-- The `unbind` function: `vm._firebaseUnbinds[key](reset)` (a TypeError
if the mapping is null or the key absent; the handle may itself throw),
then `delete vm._firebaseSources[key]` and
`delete vm._firebaseUnbinds[key]`.  Note `$firebaseRefs` is untouched. -/
def unbind (throws : Handle → Bool) (vm : Vm) (key : Key)
    (reset : Option ResetVal) : Vm × List Event × Option Err :=
  match vm.firebaseUnbinds with
  | none => (vm, [], some .typeError)
  | some m =>
    match alookup m key with
    | none => (vm, [], some .typeError)
    | some h =>
      if throws h then (vm, [.invoke h reset], some (.handleError h))
      else
        match vm.firebaseSources with
        | none => (vm, [.invoke h reset], some .typeError)
        | some s =>
          ({ vm with
              firebaseSources := some (aerase s key)
              firebaseUnbinds := some (aerase m key) },
            [.invoke h reset], none)

/-- The reset argument computed by the rebind branch of `rtdbBind`
(lines 178-182): if wait, allow overriding with a function, otherwise
force reset to false; else pass the reset option. -/
def rebindReset (options : ResolvedOptions) : ResetVal :=
  if options.wait then
    if options.reset.isFunction then options.reset else .bool false
  else options.reset

/-- Tail of `rtdbBind` after the rebind branch: `bind(this, key, source,
options)`, then `this._firebaseSources[key] = source`, then
`this.$firebaseRefs[key] = getRef(source)`; `tr` is the trace produced so
far. -/
def rtdbBindFinish (vm : Vm) (tr : List Event) (key : Key) (source : Source)
    (newHandle : Handle) : Vm × List Event × Option Err :=
  match bind vm key source newHandle with
  | (vm1, tr1, some e) => (vm1, tr ++ tr1, some e)
  | (vm1, tr1, none) =>
    match vm1.firebaseSources with
    | none => (vm1, tr ++ tr1, some .typeError)
    | some s =>
      let vm2 := { vm1 with firebaseSources := some (aset s key source) }
      match vm2.firebaseRefs with
      | none => (vm2, tr ++ tr1, some .typeError)
      | some r =>
        ({ vm2 with firebaseRefs := some (aset r key (getRef source)) },
          tr ++ tr1, none)

/-- The public bind entry point `rtdbBind` installed on
`app.config.globalProperties`: merges the global options with the
per-call overrides, tears down a prior binding of `key` (through the
installed unbind entry point) with the computed rebind reset argument,
then binds and records source and canonical reference. -/
def rtdbBind (throws : Handle → Bool) (globalOptions : ResolvedOptions)
    (vm : Vm) (key : Key) (source : Source) (userOptions : PluginOptions)
    (newHandle : Handle) : Vm × List Event × Option Err :=
  let options := mergeOptions globalOptions userOptions
  match vm.firebaseUnbinds with
  | none => (vm, [], some .typeError)
  | some m =>
    if (alookup m key).isSome then
      match unbind throws vm key (some (rebindReset options)) with
      | (vm', tr, some e) => (vm', tr, some e)
      | (vm', tr, none) => rtdbBindFinish vm' tr key source newHandle
    else
      rtdbBindFinish vm [] key source newHandle

/-- The `beforeCreate` hook: initializes the three registry mappings to
fresh empty records. -/
def beforeCreate (vm : Vm) : Vm :=
  { vm with
      firebaseSources := some []
      firebaseUnbinds := some []
      firebaseRefs := some [] }

/-- The `created` hook: for each entry of the declarative `firebase`
binding map, call the bind entry point with the global options; an
exception from a bind aborts the loop.  `hs` supplies the handle each
engine invocation returns. -/
def created (throws : Handle → Bool) (globalOptions : ResolvedOptions)
    (vm : Vm) (bindings : List (Key × Source)) (hs : Key → Handle) :
    Vm × List Event × Option Err :=
  match bindings with
  | [] => (vm, [], none)
  | (k, s) :: rest =>
    match rtdbBind throws globalOptions vm k s (asOverrides globalOptions)
        (hs k) with
    | (vm', tr, some e) => (vm', tr, some e)
    | (vm', tr, none) =>
      ((created throws globalOptions vm' rest hs).1,
        tr ++ (created throws globalOptions vm' rest hs).2.1,
        (created throws globalOptions vm' rest hs).2.2)

/-- The loop body of `beforeDestroy`: `for (const key in
this._firebaseUnbinds) this._firebaseUnbinds[key]()` — each handle is
invoked with no reset argument; a throw aborts the loop. -/
def invokeAll (throws : Handle → Bool) :
    List (Key × Handle) → List Event × Option Err
  | [] => ([], none)
  | (_, h) :: rest =>
    if throws h then ([.invoke h none], some (.handleError h))
    else
      (.invoke h none :: (invokeAll throws rest).1, (invokeAll throws rest).2)

/-- The `beforeDestroy` hook: invoke every stored unsubscribe handle,
then set all three registry mappings to `null`.  A handle that throws
aborts the hook before the mappings are discarded. -/
def beforeDestroy (throws : Handle → Bool) (vm : Vm) :
    Vm × List Event × Option Err :=
  match invokeAll throws (vm.firebaseUnbinds.getD []) with
  | (tr, some e) => (vm, tr, some e)
  | (tr, none) =>
    ({ vm with
        firebaseSources := none
        firebaseUnbinds := none
        firebaseRefs := none },
      tr, none)

/-- The registry consistency invariant: the source mapping and the
unsubscribe mapping are null together, and when non-null they hold
exactly the same keys. -/
def Inv (vm : Vm) : Prop :=
  (vm.firebaseSources = none ↔ vm.firebaseUnbinds = none) ∧
  ∀ k, ocontains vm.firebaseSources k = ocontains vm.firebaseUnbinds k

/- Concrete sample data used by witnesses and counterexamples. -/

/-- Handle behaviour where no unsubscribe handle ever throws. -/
def noThrow : Handle → Bool := fun _ => false

/-- A sample source whose canonical reference is `100`. -/
def sampleSource : Source := { id := 10, refId := 100, isCollectionShaped := false }

/-- A second sample source, collection-shaped remotely. -/
def sampleSource2 : Source := { id := 11, refId := 101, isCollectionShaped := true }

/-- A sample instance before `beforeCreate` runs: an object-valued
`profile` property and an array-valued `items` property. -/
def sampleVmInit : Vm :=
  { props := [("profile", .obj 0), ("items", .arr 0)]
    firebaseSources := none
    firebaseUnbinds := none
    firebaseRefs := none }

/-- The sample instance after `beforeCreate`. -/
def sampleVm : Vm := beforeCreate sampleVmInit

/-- The sample instance after binding `profile` (engine handle `5`). -/
def sampleBound : Vm :=
  (rtdbBind noThrow defaultOptions sampleVm "profile" sampleSource {} 5).1

/-- An instance holding two bound keys with handles `1` and `2`, used for
the destruction scenarios. -/
def vmTwo : Vm :=
  { props := []
    firebaseSources := some [("a", sampleSource), ("b", sampleSource2)]
    firebaseUnbinds := some [("a", 1), ("b", 2)]
    firebaseRefs := some [("a", 100), ("b", 101)] }

/-- Handle behaviour where exactly handle `1` throws when invoked. -/
def throwsOne : Handle → Bool := fun h => h == 1

/- Helper lemmas about the record operations. -/

theorem acontains_aset {α : Type} (m : List (Key × α)) (k q : Key) (v : α) :
    acontains (aset m k v) q = (decide (k = q) || acontains m q) := by
  induction m with
  | nil =>
    simp only [aset, acontains, alookup]
    by_cases h : k = q <;> simp [h]
  | cons p rest ih =>
    obtain ⟨k', v'⟩ := p
    simp only [aset]
    by_cases h1 : k' = k
    · subst h1
      simp only [if_pos rfl, acontains, alookup]
      by_cases h2 : k' = q <;> simp [h2]
    · rw [if_neg h1]
      simp only [acontains, alookup] at *
      by_cases h2 : k' = q
      · simp [h2]
      · simp [h2, ih]

theorem acontains_aerase {α : Type} (m : List (Key × α)) (k q : Key) :
    acontains (aerase m k) q = (!decide (k = q) && acontains m q) := by
  induction m with
  | nil => simp [aerase, acontains, alookup]
  | cons p rest ih =>
    obtain ⟨k', v'⟩ := p
    simp only [aerase]
    by_cases h1 : k' = k
    · subst h1
      rw [if_pos rfl, ih]
      simp only [acontains, alookup]
      by_cases h2 : k' = q
      · subst h2; simp
      · simp [h2]
    · rw [if_neg h1]
      simp only [acontains, alookup] at *
      by_cases h2 : k' = q
      · have hkq : ¬k = q := fun hh => h1 (h2.trans hh.symm)
        simp [h2, hkq]
      · simp [h2, ih]

theorem acontains_aerase_self {α : Type} (m : List (Key × α)) (k : Key) :
    acontains (aerase m k) k = false := by
  simp [acontains_aerase]

theorem isEngine_modeEvent (vm : Vm) (key : Key) (source : Source) :
    Event.isEngine (modeEvent vm key source) = true := by
  unfold modeEvent
  cases localIsArray vm key <;> simp [Event.isEngine]

theorem bind_trace (vm : Vm) (key : Key) (source : Source) (nh : Handle) :
    (bind vm key source nh).2.1 = [modeEvent vm key source] := by
  unfold bind
  cases vm.firebaseUnbinds <;> rfl

theorem rtdbBindFinish_trace (vm : Vm) (tr : List Event) (key : Key)
    (source : Source) (nh : Handle) :
    ∃ ev, Event.isEngine ev = true ∧
      (rtdbBindFinish vm tr key source nh).2.1 = tr ++ [ev] := by
  refine ⟨modeEvent vm key source, isEngine_modeEvent _ _ _, ?_⟩
  unfold rtdbBindFinish
  unfold bind
  cases hub : vm.firebaseUnbinds with
  | none => rfl
  | some m =>
    simp only []
    cases hs : vm.firebaseSources with
    | none => rfl
    | some s =>
      cases hr : vm.firebaseRefs with
      | none => rfl
      | some r => rfl

theorem invokeAll_nothrow (throws : Handle → Bool)
    (hs : List (Key × Handle)) (hnt : ∀ p ∈ hs, throws p.2 = false) :
    invokeAll throws hs =
      (hs.map (fun p => Event.invoke p.2 none), none) := by
  induction hs with
  | nil => rfl
  | cons p rest ih =>
    obtain ⟨k, h⟩ := p
    have h1 : throws h = false := hnt (k, h) (List.mem_cons_self _ _)
    have h2 : ∀ q ∈ rest, throws q.2 = false :=
      fun q hq => hnt q (List.mem_cons_of_mem _ hq)
    simp [invokeAll, h1, ih h2]

theorem invokeAll_abort (throws : Handle → Bool) (pre : List (Key × Handle))
    (k : Key) (h : Handle) (post : List (Key × Handle))
    (hpre : ∀ p ∈ pre, throws p.2 = false) (hth : throws h = true) :
    invokeAll throws (pre ++ (k, h) :: post) =
      (pre.map (fun p => Event.invoke p.2 none) ++ [Event.invoke h none],
        some (Err.handleError h)) := by
  induction pre with
  | nil => simp [invokeAll, hth]
  | cons p rest ih =>
    obtain ⟨k', h'⟩ := p
    have h1 : throws h' = false := hpre (k', h') (List.mem_cons_self _ _)
    have h2 : ∀ q ∈ rest, throws q.2 = false :=
      fun q hq => hpre q (List.mem_cons_of_mem _ hq)
    simp [invokeAll, h1]
    rw [ih h2]
    exact ⟨rfl, rfl⟩

/- Case equations for `unbind` and `rtdbBind` on a bound key. -/

theorem unbind_throw_eq (throws : Handle → Bool) (vm : Vm) (key : Key)
    (r : Option ResetVal) (m : List (Key × Handle)) (h : Handle)
    (hm : vm.firebaseUnbinds = some m) (hh : alookup m key = some h)
    (ht : throws h = true) :
    unbind throws vm key r =
      (vm, [Event.invoke h r], some (Err.handleError h)) := by
  simp [unbind, hm, hh, ht]

theorem unbind_srcnull_eq (throws : Handle → Bool) (vm : Vm) (key : Key)
    (r : Option ResetVal) (m : List (Key × Handle)) (h : Handle)
    (hm : vm.firebaseUnbinds = some m) (hh : alookup m key = some h)
    (ht : throws h = false) (hs : vm.firebaseSources = none) :
    unbind throws vm key r = (vm, [Event.invoke h r], some Err.typeError) := by
  simp [unbind, hm, hh, ht, hs]

theorem unbind_success_eq (throws : Handle → Bool) (vm : Vm) (key : Key)
    (r : Option ResetVal) (m : List (Key × Handle))
    (s : List (Key × Source)) (h : Handle)
    (hm : vm.firebaseUnbinds = some m) (hh : alookup m key = some h)
    (ht : throws h = false) (hs : vm.firebaseSources = some s) :
    unbind throws vm key r =
      ({ vm with
          firebaseSources := some (aerase s key)
          firebaseUnbinds := some (aerase m key) },
        [Event.invoke h r], none) := by
  simp [unbind, hm, hh, ht, hs]

theorem rtdbBind_bound_throw_eq (throws : Handle → Bool)
    (g : ResolvedOptions) (vm : Vm) (key : Key) (source : Source)
    (uo : PluginOptions) (nh : Handle) (m : List (Key × Handle)) (h : Handle)
    (hm : vm.firebaseUnbinds = some m) (hh : alookup m key = some h)
    (ht : throws h = true) :
    rtdbBind throws g vm key source uo nh =
      (vm, [Event.invoke h (some (rebindReset (mergeOptions g uo)))],
        some (Err.handleError h)) := by
  simp [rtdbBind, hm, hh, unbind, ht]

theorem rtdbBind_bound_srcnull_eq (throws : Handle → Bool)
    (g : ResolvedOptions) (vm : Vm) (key : Key) (source : Source)
    (uo : PluginOptions) (nh : Handle) (m : List (Key × Handle)) (h : Handle)
    (hm : vm.firebaseUnbinds = some m) (hh : alookup m key = some h)
    (ht : throws h = false) (hs : vm.firebaseSources = none) :
    rtdbBind throws g vm key source uo nh =
      (vm, [Event.invoke h (some (rebindReset (mergeOptions g uo)))],
        some Err.typeError) := by
  simp [rtdbBind, hm, hh, unbind, ht, hs]

theorem rtdbBind_bound_success_eq (throws : Handle → Bool)
    (g : ResolvedOptions) (vm : Vm) (key : Key) (source : Source)
    (uo : PluginOptions) (nh : Handle) (m : List (Key × Handle))
    (s : List (Key × Source)) (h : Handle)
    (hm : vm.firebaseUnbinds = some m) (hh : alookup m key = some h)
    (ht : throws h = false) (hs : vm.firebaseSources = some s) :
    rtdbBind throws g vm key source uo nh =
      rtdbBindFinish
        ({ vm with
            firebaseSources := some (aerase s key)
            firebaseUnbinds := some (aerase m key) })
        [Event.invoke h (some (rebindReset (mergeOptions g uo)))]
        key source nh := by
  simp [rtdbBind, hm, hh, unbind, ht, hs]

theorem rtdbBind_unbound_eq (throws : Handle → Bool) (g : ResolvedOptions)
    (vm : Vm) (key : Key) (source : Source) (uo : PluginOptions)
    (nh : Handle) (m : List (Key × Handle))
    (hm : vm.firebaseUnbinds = some m) (hh : alookup m key = none) :
    rtdbBind throws g vm key source uo nh =
      rtdbBindFinish vm [] key source nh := by
  simp [rtdbBind, hm, hh]

/-- Per-call overrides used in the option-resolution witness: `reset` and
`wait` given, the other fields left unspecified. -/
def sampleOverrides : PluginOptions := { reset := some (.lit 7), wait := some true }

/-- Per-call overrides used in the rebind witnesses: wait with a function
reset. -/
def sampleRebindOptions : PluginOptions := { reset := some (.fn 9), wait := some true }

/-- C9: option resolution is a pure field-by-field merge: every field
present in the per-call overrides takes the override value, and every
field absent from the overrides takes the default value; `mergeOptions`
is a total pure function, so there are no side effects and no failure
modes. -/
theorem mergeOptions_field_by_field (d : ResolvedOptions) (o : PluginOptions) :
    ((∀ x, o.bindName = some x → (mergeOptions d o).bindName = x) ∧
      (o.bindName = none → (mergeOptions d o).bindName = d.bindName)) ∧
    ((∀ x, o.unbindName = some x → (mergeOptions d o).unbindName = x) ∧
      (o.unbindName = none → (mergeOptions d o).unbindName = d.unbindName)) ∧
    ((∀ x, o.serialize = some x → (mergeOptions d o).serialize = x) ∧
      (o.serialize = none → (mergeOptions d o).serialize = d.serialize)) ∧
    ((∀ x, o.reset = some x → (mergeOptions d o).reset = x) ∧
      (o.reset = none → (mergeOptions d o).reset = d.reset)) ∧
    ((∀ x, o.wait = some x → (mergeOptions d o).wait = x) ∧
      (o.wait = none → (mergeOptions d o).wait = d.wait)) :=
  ⟨⟨fun _ hx => by simp [mergeOptions, hx], fun hx => by simp [mergeOptions, hx]⟩,
   ⟨fun _ hx => by simp [mergeOptions, hx], fun hx => by simp [mergeOptions, hx]⟩,
   ⟨fun _ hx => by simp [mergeOptions, hx], fun hx => by simp [mergeOptions, hx]⟩,
   ⟨fun _ hx => by simp [mergeOptions, hx], fun hx => by simp [mergeOptions, hx]⟩,
   ⟨fun _ hx => by simp [mergeOptions, hx], fun hx => by simp [mergeOptions, hx]⟩⟩

/-- C9 witness: with overrides specifying only `reset`, the effective
reset is the override and the effective bind name is the default. -/
theorem mergeOptions_field_by_field_witness :
    (mergeOptions defaultOptions sampleOverrides).reset = ResetVal.lit 7 ∧
    (mergeOptions defaultOptions sampleOverrides).bindName =
      defaultOptions.bindName :=
  ⟨(mergeOptions_field_by_field defaultOptions sampleOverrides).2.2.2.1.1
      (ResetVal.lit 7) rfl,
   (mergeOptions_field_by_field defaultOptions sampleOverrides).1.2 rfl⟩

/-- C7: unbinding a never-bound key is a precondition violation: the
lookup of the stored handle fails and the TypeError propagates
immediately with the instance untouched and no handle invoked, rather
than returning normally as a silent no-op. -/
theorem unbind_unbound_key_errors (throws : Handle → Bool) (vm : Vm)
    (key : Key) (r : Option ResetVal)
    (h : ocontains vm.firebaseUnbinds key = false) :
    unbind throws vm key r = (vm, [], some Err.typeError) := by
  unfold unbind
  cases hub : vm.firebaseUnbinds with
  | none => rfl
  | some m =>
    rw [hub] at h
    simp only [ocontains, Option.getD, acontains] at h
    have hl : alookup m key = none := by
      cases hl2 : alookup m key with
      | none => rfl
      | some x => rw [hl2] at h; simp at h
    simp [hl]

/-- C7 witness: unbinding the never-bound key `nope` on the freshly
created sample instance raises a TypeError. -/
theorem unbind_unbound_key_errors_witness :
    unbind noThrow sampleVm "nope" none = (sampleVm, [], some Err.typeError) :=
  unbind_unbound_key_errors noThrow sampleVm "nope" none (by decide)

/-- C10: if the stored unsubscribe handle throws when the unbind
operation invokes it, nothing is removed: the returned instance is
exactly the one before the call (all three mappings unchanged), with the
handle failure propagated. -/
theorem unbind_handle_throw_leaves_state (throws : Handle → Bool) (vm : Vm)
    (key : Key) (r : Option ResetVal) (m : List (Key × Handle)) (h : Handle)
    (hm : vm.firebaseUnbinds = some m) (hh : alookup m key = some h)
    (ht : throws h = true) :
    unbind throws vm key r =
      (vm, [Event.invoke h r], some (Err.handleError h)) := by
  simp [unbind, hm, hh, ht]

/-- C10 witness: handle `1` bound at key `a` throws; unbind returns the
instance unchanged together with the failure. -/
theorem unbind_handle_throw_leaves_state_witness :
    unbind throwsOne vmTwo "a" (some (ResetVal.lit 3)) =
      (vmTwo, [Event.invoke 1 (some (ResetVal.lit 3))],
        some (Err.handleError 1)) :=
  unbind_handle_throw_leaves_state throwsOne vmTwo "a"
    (some (ResetVal.lit 3)) [("a", 1), ("b", 2)] 1 rfl (by decide) rfl

/-- C3: synchronization mode is selected solely from the current local
value at the key: an array value selects the collection synchronizer and
any other value (including an absent property) selects the single-value
synchronizer, for every remote source whatever its shape. -/
theorem bind_mode_selection (vm : Vm) (key : Key) (source : Source)
    (nh : Handle) :
    ((∃ v, alookup vm.props key = some v ∧ v.isArray = true) →
      (bind vm key source nh).2.1 = [Event.engineArray key source]) ∧
    ((∀ v, alookup vm.props key = some v → v.isArray = false) →
      (bind vm key source nh).2.1 = [Event.engineObject key source]) := by
  constructor
  · rintro ⟨v, hv, ha⟩
    rw [bind_trace]
    simp [modeEvent, localIsArray, hv, ha]
  · intro hv
    rw [bind_trace]
    have hA : localIsArray vm key = false := by
      unfold localIsArray
      cases hl : alookup vm.props key with
      | none => rfl
      | some v => exact hv v hl
    simp [modeEvent, hA]

/-- C1: on every rebind of an already-bound key, the reset argument
passed to the prior teardown is computed exactly as: the literal
effective reset option when the effective wait option is false; the reset
function itself when wait is true and reset is a function; the value
`false` when wait is true and reset is not a function. -/
theorem rtdbBind_rebind_reset_argument (throws : Handle → Bool)
    (g : ResolvedOptions) (vm : Vm) (key : Key) (source : Source)
    (uo : PluginOptions) (nh : Handle) (m : List (Key × Handle)) (h : Handle)
    (hm : vm.firebaseUnbinds = some m) (hh : alookup m key = some h) :
    ∃ rest, (rtdbBind throws g vm key source uo nh).2.1 =
      Event.invoke h (some
        (if (mergeOptions g uo).wait = false then (mergeOptions g uo).reset
         else if (mergeOptions g uo).reset.isFunction then
           (mergeOptions g uo).reset
         else ResetVal.bool false)) :: rest := by
  have htab :
      (if (mergeOptions g uo).wait = false then (mergeOptions g uo).reset
       else if (mergeOptions g uo).reset.isFunction then
         (mergeOptions g uo).reset
       else ResetVal.bool false) = rebindReset (mergeOptions g uo) := by
    unfold rebindReset
    cases hw : (mergeOptions g uo).wait <;> simp [hw]
  rw [htab]
  cases ht : throws h with
  | true =>
    rw [rtdbBind_bound_throw_eq throws g vm key source uo nh m h hm hh ht]
    exact ⟨[], rfl⟩
  | false =>
    cases hs : vm.firebaseSources with
    | none =>
      rw [rtdbBind_bound_srcnull_eq throws g vm key source uo nh m h
        hm hh ht hs]
      exact ⟨[], rfl⟩
    | some s =>
      rw [rtdbBind_bound_success_eq throws g vm key source uo nh m s h
        hm hh ht hs]
      obtain ⟨ev, hev, htr⟩ := rtdbBindFinish_trace
        ({ vm with
            firebaseSources := some (aerase s key)
            firebaseUnbinds := some (aerase m key) })
        [Event.invoke h (some (rebindReset (mergeOptions g uo)))]
        key source nh
      exact ⟨[ev], htr⟩

/-- C1 witness: rebinding the bound `profile` key with overrides
`wait = true` and a function reset passes that function to the prior
teardown. -/
theorem rtdbBind_rebind_reset_argument_witness :
    ∃ rest, (rtdbBind noThrow defaultOptions sampleBound "profile"
        sampleSource2 sampleRebindOptions 6).2.1 =
      Event.invoke 5 (some (ResetVal.fn 9)) :: rest :=
  rtdbBind_rebind_reset_argument noThrow defaultOptions sampleBound
    "profile" sampleSource2 sampleRebindOptions 6 [("profile", 5)] 5
    (by decide) (by decide)

/-- C4: on a rebind of an already-bound key whose teardown succeeds, the
prior handle is invoked exactly once and that invocation strictly
precedes the single synchronization-engine invocation; on a key not
already present, no teardown is invoked. -/
theorem rtdbBind_teardown_once_before_engine (throws : Handle → Bool)
    (g : ResolvedOptions) (vm : Vm) (key : Key) (source : Source)
    (uo : PluginOptions) (nh : Handle) (m : List (Key × Handle))
    (s : List (Key × Source))
    (hm : vm.firebaseUnbinds = some m) (hs : vm.firebaseSources = some s) :
    (∀ h, alookup m key = some h → throws h = false →
      ∃ rv ev, Event.isEngine ev = true ∧
        (rtdbBind throws g vm key source uo nh).2.1 =
          [Event.invoke h rv, ev]) ∧
    (alookup m key = none →
      ∃ ev, Event.isEngine ev = true ∧
        (rtdbBind throws g vm key source uo nh).2.1 = [ev]) := by
  constructor
  · intro h hh ht
    rw [rtdbBind_bound_success_eq throws g vm key source uo nh m s h
      hm hh ht hs]
    obtain ⟨ev, hev, htr⟩ := rtdbBindFinish_trace
      ({ vm with
          firebaseSources := some (aerase s key)
          firebaseUnbinds := some (aerase m key) })
      [Event.invoke h (some (rebindReset (mergeOptions g uo)))]
      key source nh
    exact ⟨some (rebindReset (mergeOptions g uo)), ev, hev, htr⟩
  · intro hh
    rw [rtdbBind_unbound_eq throws g vm key source uo nh m hm hh]
    obtain ⟨ev, hev, htr⟩ := rtdbBindFinish_trace vm [] key source nh
    exact ⟨ev, hev, htr⟩

/-- C4 witness: rebinding the bound `profile` key produces exactly one
teardown invocation of handle `5` followed by one engine invocation. -/
theorem rtdbBind_teardown_once_before_engine_witness :
    ∃ rv ev, Event.isEngine ev = true ∧
      (rtdbBind noThrow defaultOptions sampleBound "profile" sampleSource2
          {} 6).2.1 = [Event.invoke 5 rv, ev] :=
  (rtdbBind_teardown_once_before_engine noThrow defaultOptions sampleBound
    "profile" sampleSource2 {} 6 [("profile", 5)]
    [("profile", sampleSource)] (by decide) (by decide)).1 5 (by decide) rfl

/-- C3 witness: the `items` property holds an array, so binding it to a
source whose remote data is not collection-shaped still invokes the
collection synchronizer. -/
theorem bind_mode_selection_witness :
    (bind sampleVm "items" sampleSource 3).2.1 =
      [Event.engineArray "items" sampleSource] :=
  (bind_mode_selection sampleVm "items" sampleSource 3).1
    ⟨Val.arr 0, by decide, rfl⟩

/- Further case equations shared by several proofs. -/

theorem unbind_ubnull_eq (throws : Handle → Bool) (vm : Vm) (key : Key)
    (r : Option ResetVal) (hub : vm.firebaseUnbinds = none) :
    unbind throws vm key r = (vm, [], some Err.typeError) := by
  simp [unbind, hub]

theorem unbind_nokey_eq (throws : Handle → Bool) (vm : Vm) (key : Key)
    (r : Option ResetVal) (m : List (Key × Handle))
    (hub : vm.firebaseUnbinds = some m) (hh : alookup m key = none) :
    unbind throws vm key r = (vm, [], some Err.typeError) := by
  simp [unbind, hub, hh]

theorem unbind_refs_unchanged (throws : Handle → Bool) (vm : Vm) (key : Key)
    (r : Option ResetVal) :
    (unbind throws vm key r).1.firebaseRefs = vm.firebaseRefs := by
  unfold unbind
  cases hub : vm.firebaseUnbinds with
  | none => rfl
  | some m =>
    cases hh : alookup m key with
    | none => simp [hh]
    | some h =>
      cases ht : throws h with
      | true => simp [hh, ht]
      | false =>
        cases hs : vm.firebaseSources <;> simp [hh, ht, hs]

theorem rtdbBind_ubnull_eq (throws : Handle → Bool) (g : ResolvedOptions)
    (vm : Vm) (key : Key) (source : Source) (uo : PluginOptions)
    (nh : Handle) (hub : vm.firebaseUnbinds = none) :
    rtdbBind throws g vm key source uo nh = (vm, [], some Err.typeError) := by
  simp [rtdbBind, hub]

theorem rtdbBindFinish_ubnull_eq (vm : Vm) (tr : List Event) (key : Key)
    (source : Source) (nh : Handle) (hub : vm.firebaseUnbinds = none) :
    rtdbBindFinish vm tr key source nh =
      (vm, tr ++ [modeEvent vm key source], some Err.typeError) := by
  simp [rtdbBindFinish, bind, hub]

theorem rtdbBindFinish_srcnull_eq (vm : Vm) (m : List (Key × Handle))
    (tr : List Event) (key : Key) (source : Source) (nh : Handle)
    (hub : vm.firebaseUnbinds = some m) (hs : vm.firebaseSources = none) :
    rtdbBindFinish vm tr key source nh =
      ({ vm with firebaseUnbinds := some (aset m key nh) },
        tr ++ [modeEvent vm key source], some Err.typeError) := by
  simp [rtdbBindFinish, bind, hub, hs]

theorem rtdbBindFinish_refnull_eq (vm : Vm) (m : List (Key × Handle))
    (s : List (Key × Source)) (tr : List Event) (key : Key)
    (source : Source) (nh : Handle)
    (hub : vm.firebaseUnbinds = some m) (hs : vm.firebaseSources = some s)
    (hr : vm.firebaseRefs = none) :
    rtdbBindFinish vm tr key source nh =
      ({ vm with
          firebaseUnbinds := some (aset m key nh)
          firebaseSources := some (aset s key source) },
        tr ++ [modeEvent vm key source], some Err.typeError) := by
  simp [rtdbBindFinish, bind, hub, hs, hr]

theorem rtdbBindFinish_success_eq (vm : Vm) (m : List (Key × Handle))
    (s : List (Key × Source)) (r : List (Key × Nat)) (tr : List Event)
    (key : Key) (source : Source) (nh : Handle)
    (hub : vm.firebaseUnbinds = some m) (hs : vm.firebaseSources = some s)
    (hr : vm.firebaseRefs = some r) :
    rtdbBindFinish vm tr key source nh =
      ({ vm with
          firebaseUnbinds := some (aset m key nh)
          firebaseSources := some (aset s key source)
          firebaseRefs := some (aset r key (getRef source)) },
        tr ++ [modeEvent vm key source], none) := by
  simp [rtdbBindFinish, bind, hub, hs, hr]

/-- C2 counterexample: unbinding the bound `profile` key invokes the
stored handle with the given reset argument and removes the key from the
source and unsubscribe mappings, but the canonical-reference mapping
still holds `profile` afterwards: the key is not removed from all three
mappings, contrary to the claim. -/
theorem unbind_keeps_canonical_reference_cex :
    (unbind noThrow sampleBound "profile" (some (ResetVal.lit 3))).2.1 =
        [Event.invoke 5 (some (ResetVal.lit 3))] ∧
    (unbind noThrow sampleBound "profile" (some (ResetVal.lit 3))).2.2 =
        none ∧
    ocontains (unbind noThrow sampleBound "profile"
        (some (ResetVal.lit 3))).1.firebaseSources "profile" = false ∧
    ocontains (unbind noThrow sampleBound "profile"
        (some (ResetVal.lit 3))).1.firebaseUnbinds "profile" = false ∧
    ocontains (unbind noThrow sampleBound "profile"
        (some (ResetVal.lit 3))).1.firebaseRefs "profile" = true := by
  decide

/-- C2 amended: unbinding a bound key invokes the stored handle with the
given reset argument and removes the key from the source and unsubscribe
mappings; the canonical-reference mapping is left unchanged, so its entry
for the key persists after unbind. -/
theorem unbind_removes_source_and_unsubscribe (throws : Handle → Bool)
    (vm : Vm) (key : Key) (r : Option ResetVal) (m : List (Key × Handle))
    (s : List (Key × Source)) (h : Handle)
    (hm : vm.firebaseUnbinds = some m) (hh : alookup m key = some h)
    (ht : throws h = false) (hs : vm.firebaseSources = some s) :
    (unbind throws vm key r).2.1 = [Event.invoke h r] ∧
    (unbind throws vm key r).2.2 = none ∧
    ocontains (unbind throws vm key r).1.firebaseSources key = false ∧
    ocontains (unbind throws vm key r).1.firebaseUnbinds key = false ∧
    (unbind throws vm key r).1.firebaseRefs = vm.firebaseRefs := by
  have he := unbind_success_eq throws vm key r m s h hm hh ht hs
  rw [he]
  refine ⟨rfl, rfl, ?_, ?_, rfl⟩
  · show acontains (aerase s key) key = false
    exact acontains_aerase_self s key
  · show acontains (aerase m key) key = false
    exact acontains_aerase_self m key

/-- C2 amended witness: unbinding the bound `profile` key at the sample
instance invokes handle `5` with the literal reset and leaves the
canonical-reference mapping unchanged. -/
theorem unbind_removes_source_and_unsubscribe_witness :
    (unbind noThrow sampleBound "profile" (some (ResetVal.lit 9))).2.1 =
        [Event.invoke 5 (some (ResetVal.lit 9))] ∧
    (unbind noThrow sampleBound "profile" (some (ResetVal.lit 9))).2.2 =
        none ∧
    ocontains (unbind noThrow sampleBound "profile"
        (some (ResetVal.lit 9))).1.firebaseSources "profile" = false ∧
    ocontains (unbind noThrow sampleBound "profile"
        (some (ResetVal.lit 9))).1.firebaseUnbinds "profile" = false ∧
    (unbind noThrow sampleBound "profile"
        (some (ResetVal.lit 9))).1.firebaseRefs = sampleBound.firebaseRefs :=
  unbind_removes_source_and_unsubscribe noThrow sampleBound "profile"
    (some (ResetVal.lit 9)) [("profile", 5)] [("profile", sampleSource)] 5
    (by decide) (by decide) rfl (by decide)

/-- C5: when no stored handle throws, destruction invokes the teardown
handle of every key present in the registry at the start, and only then
discards all three mappings; afterwards the registry contains no keys. -/
theorem beforeDestroy_invokes_all_then_discards (throws : Handle → Bool)
    (vm : Vm)
    (hnt : ∀ p ∈ vm.firebaseUnbinds.getD [], throws p.2 = false) :
    (beforeDestroy throws vm).2.2 = none ∧
    (beforeDestroy throws vm).2.1 =
      (vm.firebaseUnbinds.getD []).map (fun p => Event.invoke p.2 none) ∧
    (beforeDestroy throws vm).1.firebaseSources = none ∧
    (beforeDestroy throws vm).1.firebaseUnbinds = none ∧
    (beforeDestroy throws vm).1.firebaseRefs = none ∧
    ∀ k, ocontains (beforeDestroy throws vm).1.firebaseSources k = false ∧
      ocontains (beforeDestroy throws vm).1.firebaseUnbinds k = false ∧
      ocontains (beforeDestroy throws vm).1.firebaseRefs k = false := by
  have hiv := invokeAll_nothrow throws (vm.firebaseUnbinds.getD []) hnt
  unfold beforeDestroy
  rw [hiv]
  exact ⟨rfl, rfl, rfl, rfl, rfl, fun k => ⟨rfl, rfl, rfl⟩⟩

/-- C5 witness: destroying the two-key instance invokes handles `1` and
`2` and then discards the mappings. -/
theorem beforeDestroy_invokes_all_then_discards_witness :
    (beforeDestroy noThrow vmTwo).2.2 = none ∧
    (beforeDestroy noThrow vmTwo).2.1 =
      [Event.invoke 1 none, Event.invoke 2 none] ∧
    (beforeDestroy noThrow vmTwo).1.firebaseUnbinds = none :=
  ⟨(beforeDestroy_invokes_all_then_discards noThrow vmTwo (by decide)).1,
   (beforeDestroy_invokes_all_then_discards noThrow vmTwo (by decide)).2.1,
   (beforeDestroy_invokes_all_then_discards noThrow vmTwo
      (by decide)).2.2.2.2.1⟩

/-- An instance with three bound keys where the middle handle (`1`)
throws, used for the destruction-abort scenario. -/
def vmThree : Vm :=
  { props := []
    firebaseSources :=
      some [("a", sampleSource), ("b", sampleSource), ("c", sampleSource2)]
    firebaseUnbinds := some [("a", 3), ("b", 1), ("c", 2)]
    firebaseRefs := some [("a", 100), ("b", 100), ("c", 101)] }

/-- C6 counterexample: with keys `a` (handle `1`, which throws) and `b`
(handle `2`) bound, destruction propagates the failure, but the handle of
the remaining key `b` is never invoked and the mappings are kept: the
remaining keys are not processed, contrary to the claim. -/
theorem beforeDestroy_abort_cex :
    (beforeDestroy throwsOne vmTwo).2.2 = some (Err.handleError 1) ∧
    (beforeDestroy throwsOne vmTwo).2.1 = [Event.invoke 1 none] ∧
    Event.invoke 2 none ∉ (beforeDestroy throwsOne vmTwo).2.1 ∧
    (beforeDestroy throwsOne vmTwo).1 = vmTwo := by
  decide

/-- C6 amended: if a stored handle throws during destruction, the failure
propagates uncaught to the caller of the destruction transition; the keys
before the failing one have been torn down, the keys after it are not
processed (the loop aborts at the failing handle), and the three mappings
are not discarded. -/
theorem beforeDestroy_abort (throws : Handle → Bool) (vm : Vm)
    (pre : List (Key × Handle)) (k : Key) (h : Handle)
    (post : List (Key × Handle))
    (hm : vm.firebaseUnbinds = some (pre ++ (k, h) :: post))
    (hpre : ∀ p ∈ pre, throws p.2 = false) (hth : throws h = true) :
    beforeDestroy throws vm =
      (vm, pre.map (fun p => Event.invoke p.2 none) ++ [Event.invoke h none],
        some (Err.handleError h)) := by
  unfold beforeDestroy
  rw [hm, Option.getD_some, invokeAll_abort throws pre k h post hpre hth]

/-- C6 amended witness: destroying the three-key instance tears down
handle `3`, aborts at throwing handle `1`, never invokes handle `2`, and
keeps the mappings. -/
theorem beforeDestroy_abort_witness :
    beforeDestroy throwsOne vmThree =
      (vmThree, [Event.invoke 3 none, Event.invoke 1 none],
        some (Err.handleError 1)) :=
  beforeDestroy_abort throwsOne vmThree [("a", 3)] "b" 1 [("c", 2)]
    rfl (by decide) rfl

/- Preservation of the registry consistency invariant. -/

theorem Inv_beforeCreate (vm : Vm) : Inv (beforeCreate vm) := by
  constructor
  · constructor <;> intro h <;> simp [beforeCreate] at h
  · intro k
    rfl

theorem Inv_rtdbBindFinish (vm : Vm) (tr : List Event) (key : Key)
    (source : Source) (nh : Handle) (hInv : Inv vm) :
    Inv (rtdbBindFinish vm tr key source nh).1 := by
  obtain ⟨hnull, hkeys⟩ := hInv
  cases hub : vm.firebaseUnbinds with
  | none =>
    rw [rtdbBindFinish_ubnull_eq vm tr key source nh hub]
    exact ⟨hnull, hkeys⟩
  | some m =>
    have hkeysm : ∀ q, ocontains vm.firebaseSources q = acontains m q := by
      intro q
      rw [hkeys q, hub]
      rfl
    cases hs : vm.firebaseSources with
    | none =>
      exact absurd (hnull.mp hs) (by rw [hub]; simp)
    | some s =>
      have hsm : ∀ q, acontains s q = acontains m q := by
        intro q
        have := hkeysm q
        rw [hs] at this
        exact this
      cases hr : vm.firebaseRefs with
      | none =>
        rw [rtdbBindFinish_refnull_eq vm m s tr key source nh hub hs hr]
        refine ⟨by simp, fun q => ?_⟩
        show acontains (aset s key source) q = acontains (aset m key nh) q
        rw [acontains_aset, acontains_aset, hsm q]
      | some r =>
        rw [rtdbBindFinish_success_eq vm m s r tr key source nh hub hs hr]
        refine ⟨by simp, fun q => ?_⟩
        show acontains (aset s key source) q = acontains (aset m key nh) q
        rw [acontains_aset, acontains_aset, hsm q]

theorem Inv_unbind (throws : Handle → Bool) (vm : Vm) (key : Key)
    (r : Option ResetVal) (hInv : Inv vm) :
    Inv (unbind throws vm key r).1 := by
  obtain ⟨hnull, hkeys⟩ := hInv
  cases hub : vm.firebaseUnbinds with
  | none =>
    rw [unbind_ubnull_eq throws vm key r hub]
    exact ⟨hnull, hkeys⟩
  | some m =>
    cases hh : alookup m key with
    | none =>
      rw [unbind_nokey_eq throws vm key r m hub hh]
      exact ⟨hnull, hkeys⟩
    | some h =>
      cases ht : throws h with
      | true =>
        rw [unbind_throw_eq throws vm key r m h hub hh ht]
        exact ⟨hnull, hkeys⟩
      | false =>
        cases hs : vm.firebaseSources with
        | none =>
          exact absurd (hnull.mp hs) (by rw [hub]; simp)
        | some s =>
          rw [unbind_success_eq throws vm key r m s h hub hh ht hs]
          refine ⟨by simp, fun q => ?_⟩
          show acontains (aerase s key) q = acontains (aerase m key) q
          rw [acontains_aerase, acontains_aerase]
          have := hkeys q
          rw [hs, hub] at this
          exact congrArg (!decide (key = q) && ·) this

theorem Inv_rtdbBind (throws : Handle → Bool) (g : ResolvedOptions)
    (vm : Vm) (key : Key) (source : Source) (uo : PluginOptions)
    (nh : Handle) (hInv : Inv vm) :
    Inv (rtdbBind throws g vm key source uo nh).1 := by
  cases hub : vm.firebaseUnbinds with
  | none =>
    rw [rtdbBind_ubnull_eq throws g vm key source uo nh hub]
    exact hInv
  | some m =>
    cases hh : alookup m key with
    | none =>
      rw [rtdbBind_unbound_eq throws g vm key source uo nh m hub hh]
      exact Inv_rtdbBindFinish vm [] key source nh hInv
    | some h =>
      cases ht : throws h with
      | true =>
        rw [rtdbBind_bound_throw_eq throws g vm key source uo nh m h
          hub hh ht]
        exact hInv
      | false =>
        cases hs : vm.firebaseSources with
        | none =>
          exact absurd (hInv.1.mp hs) (by rw [hub]; simp)
        | some s =>
          rw [rtdbBind_bound_success_eq throws g vm key source uo nh m s h
            hub hh ht hs]
          apply Inv_rtdbBindFinish
          refine ⟨by simp, fun q => ?_⟩
          show acontains (aerase s key) q = acontains (aerase m key) q
          rw [acontains_aerase, acontains_aerase]
          have := hInv.2 q
          rw [hs, hub] at this
          exact congrArg (!decide (key = q) && ·) this

theorem Inv_created (throws : Handle → Bool) (g : ResolvedOptions)
    (bindings : List (Key × Source)) (hs : Key → Handle) :
    ∀ vm : Vm, Inv vm → Inv (created throws g vm bindings hs).1 := by
  induction bindings with
  | nil => exact fun vm hInv => hInv
  | cons p rest ih =>
    intro vm hInv
    obtain ⟨k, s⟩ := p
    have h1 : Inv (rtdbBind throws g vm k s (asOverrides g) (hs k)).1 :=
      Inv_rtdbBind throws g vm k s (asOverrides g) (hs k) hInv
    rcases hrb : rtdbBind throws g vm k s (asOverrides g) (hs k)
      with ⟨vm', tr, e⟩
    rw [hrb] at h1
    cases e with
    | some err => simpa [created, hrb] using h1
    | none =>
      have h2 := ih vm' h1
      simpa [created, hrb] using h2

theorem Inv_beforeDestroy (throws : Handle → Bool) (vm : Vm)
    (hInv : Inv vm) : Inv (beforeDestroy throws vm).1 := by
  unfold beforeDestroy
  rcases hia : invokeAll throws (vm.firebaseUnbinds.getD []) with ⟨tr, e⟩
  cases e with
  | some err => exact hInv
  | none => exact ⟨by simp, fun k => rfl⟩

/-- C8 counterexample: binding `a` on a freshly created instance and then
unbinding it leaves the key in the canonical-reference mapping although
it is no longer bound, contradicting that the canonical-reference mapping
holds an entry for a key only while that key is bound. -/
theorem canonical_reference_outlives_binding_cex :
    ocontains (unbind noThrow (rtdbBind noThrow defaultOptions sampleVm "a"
        sampleSource {} 4).1 "a" none).1.firebaseRefs "a" = true ∧
    ocontains (unbind noThrow (rtdbBind noThrow defaultOptions sampleVm "a"
        sampleSource {} 4).1 "a" none).1.firebaseUnbinds "a" = false ∧
    ocontains (unbind noThrow (rtdbBind noThrow defaultOptions sampleVm "a"
        sampleSource {} 4).1 "a" none).1.firebaseSources "a" = false := by
  decide

/-- C8 amended: at every public-operation boundary a key appears in the
unsubscribe mapping if and only if it appears in the source mapping (and
the two mappings are null together); the canonical-reference mapping is
populated on bind but is not cleared on unbind — unbind leaves it
unchanged, so its entries may outlive the binding until destruction
discards the mapping. -/
theorem registry_invariant_preserved (throws : Handle → Bool)
    (g : ResolvedOptions) (vm : Vm) (hInv : Inv vm) :
    Inv (beforeCreate vm) ∧
    (∀ key source uo nh, Inv (rtdbBind throws g vm key source uo nh).1) ∧
    (∀ key r, Inv (unbind throws vm key r).1) ∧
    (∀ bindings hs, Inv (created throws g vm bindings hs).1) ∧
    Inv (beforeDestroy throws vm).1 ∧
    (∀ key r, (unbind throws vm key r).1.firebaseRefs = vm.firebaseRefs) :=
  ⟨Inv_beforeCreate vm,
   fun key source uo nh => Inv_rtdbBind throws g vm key source uo nh hInv,
   fun key r => Inv_unbind throws vm key r hInv,
   fun bindings hs => Inv_created throws g bindings hs vm hInv,
   Inv_beforeDestroy throws vm hInv,
   fun key r => unbind_refs_unchanged throws vm key r⟩

/-- C8 amended witness: the invariant holds after destroying the freshly
created sample instance. -/
theorem registry_invariant_preserved_witness :
    Inv (beforeDestroy noThrow sampleVm).1 :=
  (registry_invariant_preserved noThrow defaultOptions sampleVm
    (Inv_beforeCreate sampleVmInit)).2.2.2.2.1

end RTDB
